import Mathlib

/-!
Shallow embedding of `fastmri/data/mri_data.py`: the single-root
`SliceDataset` (construction with cache / sub-sampling / column filtering,
and `__getitem__`) and the `CombinedSliceDataset` (concatenated indexing).

Python-specific behaviours modelled faithfully:
* `list[i]` supports negative indices (`pyListGet`);
* `list[:stop]` clamps and supports negative stops (`pySliceTo`);
* `round` rounds half to even (`pyRound`), stated over `ℚ`;
* `if num_cols:` treats an empty tuple as falsy;
* the combined `__getitem__` returns `None` (here `Except.ok none`) when
  the loop over the underlying datasets falls through.

Randomness (`random.shuffle`) is modelled by an explicit shuffle
function parameter; theorems that depend on it assume the shuffle
produces a permutation of its input.  The filesystem is passed in as
pure data (cache-file content, directory listing, file lookup), and the
constructor additionally records the trace of filesystem events it
performs, in order.
-/

namespace MriData

/-- Per-file metadata derived from the XML header
(`encoding_size`, `recon_size`, `padding_left`, `padding_right`). -/
structure Metadata where
  padding_left : Int
  padding_right : Int
  encoding_size : Int × Int × Int
  recon_size : Int × Int × Int
deriving DecidableEq, Repr

/-- One example entry: `(fname, slice_ind, metadata)`. -/
structure Example where
  fname : String
  sliceInd : Nat
  metadata : Metadata
deriving DecidableEq, Repr

/-- A scan file as the dataset sees it: path name, the integers parsed
from its ISMRMRD XML header, the kspace array (one abstract `Int` datum
per slice), the optional mask, the named reconstruction arrays, and the
scalar attributes. -/
structure ScanFile where
  fname : String
  encX : Int
  encY : Int
  encZ : Int
  recX : Int
  recY : Int
  recZ : Int
  center : Int
  maximum : Int
  kspace : List Int
  mask : Option Int
  recons : List (String × List Int)
  attrs : List (String × Int)

abbrev Root := String

/-- The on-disk dataset cache: a mapping from root to example list
(a pickled Python dict, modelled as an association list). -/
abbrev Cache := List (Root × List Example)

/-- `dataset_cache.get(root)`. -/
def cacheGet (c : Cache) (r : Root) : Option (List Example) :=
  (c.find? (fun p => p.1 = r)).map (fun p => p.2)

/-- `dataset_cache[root] = v`: Python dict assignment
(update in place if the key is present, else append). -/
def cacheSet (c : Cache) (r : Root) (v : List Example) : Cache :=
  if (c.find? (fun p => p.1 = r)).isSome then
    c.map (fun p => if p.1 = r then (r, v) else p)
  else
    c ++ [(r, v)]

/-- Python `round` on a rational: nearest integer, ties to even
(`Rat.floor` is used rather than `⌊·⌋` so that the definition computes
in the kernel; the two agree, see `ratFloor_eq_floor`). -/
def pyRound (q : ℚ) : ℤ :=
  if q - Rat.floor q < 1/2 then Rat.floor q
  else if (1 : ℚ)/2 < q - Rat.floor q then Rat.floor q + 1
  else if Rat.floor q % 2 = 0 then Rat.floor q else Rat.floor q + 1

/-- Python `l[:stop]`: a negative stop counts from the end; the result
is clamped to the available elements. -/
def pySliceTo (stop : Int) (l : List α) : List α :=
  if stop < 0 then l.take (max (stop + l.length) 0).toNat
  else l.take stop.toNat

/-- Python `l[i]`: negative indices count from the end; out of range on
both sides is an `IndexError`, modelled as `none`. -/
def pyListGet (l : List α) (i : Int) : Option α :=
  if i < 0 then
    if 0 ≤ i + (l.length : Int) then l.get? (i + l.length).toNat else none
  else
    if i < (l.length : Int) then l.get? i.toNat else none

/-- `fname.name`: the base name of a path. -/
def baseName (s : String) : String :=
  (s.splitOn "/").getLastD s

/-- The metadata computed for one scan file on a cache miss:
`padding_left = enc_size[1] // 2 - enc_limits_center`,
`padding_right = padding_left + enc_limits_max` where
`enc_limits_max = maximum + 1` (Python `//` is floor division). -/
def fileMetadata (f : ScanFile) : Metadata :=
  let padding_left := Int.fdiv f.encY 2 - f.center
  let padding_right := padding_left + (f.maximum + 1)
  { padding_left := padding_left
    padding_right := padding_right
    encoding_size := (f.encX, f.encY, f.encZ)
    recon_size := (f.recX, f.recY, f.recZ) }

/-- The example entries contributed by one file: one per slice index in
`[0, num_slices)`, where `num_slices = hf["kspace"].shape[0]`. -/
def fileExamples (f : ScanFile) : List Example :=
  (List.range f.kspace.length).map
    (fun slice_ind => ⟨f.fname, slice_ind, fileMetadata f⟩)

/-- Insertion step for sorting the directory listing by path name. -/
def insertByName (f : ScanFile) : List ScanFile → List ScanFile
  | [] => [f]
  | g :: gs => if f.fname ≤ g.fname then f :: g :: gs else g :: insertByName f gs

/-- `sorted(files)`: sort the directory listing by path name
(insertion sort; stable, like Python's `sorted`). -/
def sortFiles : List ScanFile → List ScanFile
  | [] => []
  | f :: fs => insertByName f (sortFiles fs)

/-- The full index built on a cache miss: scan the files in sorted
order and concatenate each file's example entries. -/
def scanExamples (files : List ScanFile) : List Example :=
  ((sortFiles files).map fileExamples).flatten

/-- `if sample_rate < 1: shuffle; truncate to round(len * sample_rate)`. -/
def applySampling (sample_rate : ℚ) (shuffle : List Example → List Example)
    (examples : List Example) : List Example :=
  if sample_rate < 1 then
    let shuffled := shuffle examples
    pySliceTo (pyRound ((shuffled.length : ℚ) * sample_rate)) shuffled
  else examples

/-- `if num_cols: keep entries with encoding_size[1] in num_cols`.
An empty tuple is falsy in Python, so it disables filtering. -/
def applyNumCols (num_cols : Option (List Int)) (examples : List Example) :
    List Example :=
  match num_cols with
  | none => examples
  | some cs =>
      if cs.isEmpty then examples
      else examples.filter (fun ex => cs.contains ex.metadata.encoding_size.2.1)

/-- The five positional inputs handed to the transform collaborator
(the attributes are the file's scalar attributes together with the
stored slice metadata, as produced by `attrs.update(metadata)`). -/
structure TransformInput where
  kspace : Int
  mask : Option Int
  target : Option Int
  attrs : List (String × Int) × Metadata
  fname : String
  sliceInd : Nat

/-- The state of a constructed `SliceDataset`. -/
structure SliceDataset where
  recons_key : String
  examples : List Example
  transform : TransformInput → Int

/-- Filesystem events the constructor can perform, in order. -/
inductive FsEvent
  | cacheRead
  | dirList (root : Root)
  | fileOpen (fname : String)
  | cacheWrite
deriving DecidableEq, Repr

/-- Outcome of `SliceDataset.__init__`: the result (or the
`ValueError` message), the filesystem trace, and the cache content
written back to disk, if any. -/
structure InitOutcome where
  result : Except String SliceDataset
  trace : List FsEvent
  written : Option Cache

/-- `SliceDataset.__init__`.  `cacheFile` is the content of the cache
file on disk (`none` if the file does not exist), `files` the directory
listing of `root`, and `shuffle` stands in for `random.shuffle`. -/
def sliceDatasetInit (root : Root) (transform : TransformInput → Int)
    (challenge : String) (sample_rate : ℚ)
    (shuffle : List Example → List Example) (num_cols : Option (List Int))
    (cacheFile : Option Cache) (files : List ScanFile) : InitOutcome :=
  if challenge ≠ "singlecoil" ∧ challenge ≠ "multicoil" then
    { result := Except.error
        "challenge should be either \x22singlecoil\x22 or \x22multicoil\x22"
      trace := []
      written := none }
  else
    let recons_key :=
      if challenge = "singlecoil" then "reconstruction_esc"
      else "reconstruction_rss"
    let dataset_cache := cacheFile.getD []
    let readTrace := if cacheFile.isSome then [FsEvent.cacheRead] else []
    match cacheGet dataset_cache root with
    | none =>
        let examples := scanExamples files
        let newCache := cacheSet dataset_cache root examples
        let sampled := applySampling sample_rate shuffle examples
        let final := applyNumCols num_cols sampled
        { result := Except.ok
            { recons_key := recons_key, examples := final,
              transform := transform }
          trace := readTrace ++ [FsEvent.dirList root]
            ++ (sortFiles files).map (fun f => FsEvent.fileOpen f.fname)
            ++ [FsEvent.cacheWrite]
          written := some newCache }
    | some cached =>
        let sampled := applySampling sample_rate shuffle cached
        let final := applyNumCols num_cols sampled
        { result := Except.ok
            { recons_key := recons_key, examples := final,
              transform := transform }
          trace := readTrace
          written := none }

/-- The example list held by the dataset right before sampling and
filtering: the cached list on a hit, the freshly scanned one on a miss. -/
def baseExamples (cacheFile : Option Cache) (root : Root)
    (files : List ScanFile) : List Example :=
  match cacheGet (cacheFile.getD []) root with
  | some cached => cached
  | none => scanExamples files

/-- Errors `__getitem__` can raise. -/
inductive GetErr
  | indexError
  | ioError
deriving DecidableEq, Repr

/-- The filesystem as `__getitem__` sees it: opening a path yields a
scan file or fails. -/
abbrev FS := String → Option ScanFile

/-- `"key" in hf` / `hf[key]` for the reconstruction arrays. -/
def lookupRecons (hf : ScanFile) (key : String) : Option (List Int) :=
  (hf.recons.find? (fun p => p.1 = key)).map (fun p => p.2)

/-- `SliceDataset.__getitem__`: index the example list (Python
semantics), open the file, read the kspace slice, the optional mask and
the optional target, merge the attributes, and apply the transform. -/
def sliceGetitem (fs : FS) (ds : SliceDataset) (i : Int) : Except GetErr Int :=
  match pyListGet ds.examples i with
  | none => Except.error GetErr.indexError
  | some ex =>
    match fs ex.fname with
    | none => Except.error GetErr.ioError
    | some hf =>
      match hf.kspace.get? ex.sliceInd with
      | none => Except.error GetErr.ioError
      | some kspace =>
        match lookupRecons hf ds.recons_key with
        | some arr =>
          match arr.get? ex.sliceInd with
          | none => Except.error GetErr.ioError
          | some t =>
            Except.ok (ds.transform
              ⟨kspace, hf.mask, some t, (hf.attrs, ex.metadata),
                baseName ex.fname, ex.sliceInd⟩)
        | none =>
          Except.ok (ds.transform
            ⟨kspace, hf.mask, none, (hf.attrs, ex.metadata),
              baseName ex.fname, ex.sliceInd⟩)

/-- A constructed `CombinedSliceDataset`: its list of single-root
datasets, in order. -/
structure CombinedSliceDataset where
  datasets : List SliceDataset

/-- `CombinedSliceDataset.__len__`: accumulate the lengths. -/
def combinedLen (ds : List SliceDataset) : Nat :=
  ds.foldl (fun length d => length + d.examples.length) 0

/-- `CombinedSliceDataset.__getitem__`: walk the datasets, delegating
when `i < len(dataset)` (true for every negative `i`), subtracting
otherwise; falling off the loop returns Python `None` (`Except.ok none`). -/
def combinedGetitem (fs : FS) : List SliceDataset → Int → Except GetErr (Option Int)
  | [], _ => Except.ok none
  | d :: ds, i =>
      if i < (d.examples.length : Int) then (sliceGetitem fs d i).map some
      else combinedGetitem fs ds (i - d.examples.length)

/-! ### Concrete fixtures used by witnesses and counterexamples -/

/-- A two-slice scan file with no reconstruction arrays and no mask. -/
def exFile : ScanFile :=
  { fname := "f1", encX := 4, encY := 6, encZ := 1,
    recX := 4, recY := 4, recZ := 1, center := 2, maximum := 3,
    kspace := [10, 20], mask := none, recons := [], attrs := [] }

/-- A filesystem containing exactly `exFile` under the name `"f1"`. -/
def exFS : FS := fun s => if s = "f1" then some exFile else none

/-- A transform that projects out the kspace datum. -/
def exTransform : TransformInput → Int := fun t => t.kspace

def exMeta : Metadata := fileMetadata exFile

def exExample0 : Example := ⟨"f1", 0, exMeta⟩

def exExample1 : Example := ⟨"f1", 1, exMeta⟩

/-- A two-example dataset over `exFile`, challenge mode "multicoil". -/
def exDS : SliceDataset :=
  { recons_key := "reconstruction_rss",
    examples := [exExample0, exExample1],
    transform := exTransform }

/-- A cache file content holding an entry for root `"r"`. -/
def exCache : Cache := [("r", [exExample0, exExample1])]

/-! ### Helper lemmas: Python rounding, slicing and indexing -/

theorem ratFloor_eq_floor (q : ℚ) : (Rat.floor q : ℤ) = ⌊q⌋ :=
  (Rat.floor_def' q).trans Rat.floor_def.symm

theorem pyRound_nonneg {q : ℚ} (h : 0 ≤ q) : 0 ≤ pyRound q := by
  have hf : 0 ≤ Rat.floor q := by
    rw [ratFloor_eq_floor]; exact Int.floor_nonneg.mpr h
  unfold pyRound; split_ifs <;> omega

theorem pyRound_le_of_lt {q : ℚ} {n : ℤ} (h : q < (n : ℚ)) : pyRound q ≤ n := by
  have hf : Rat.floor q + 1 ≤ n := by
    rw [ratFloor_eq_floor]; exact Int.floor_lt.mpr h
  unfold pyRound; split_ifs <;> omega

theorem pyRound_zero : pyRound 0 = 0 := by with_unfolding_all decide

theorem pySliceTo_of_nonneg {stop : Int} (l : List α) (h : 0 ≤ stop) :
    pySliceTo stop l = l.take stop.toNat := by
  unfold pySliceTo
  rw [if_neg (by omega)]

theorem pyListGet_of_mem_range {l : List α} {i : Int} (h0 : 0 ≤ i)
    (h1 : i < (l.length : Int)) : pyListGet l i = l.get? i.toNat := by
  unfold pyListGet
  rw [if_neg (by omega), if_pos h1]

theorem pyListGet_eq_none {l : List α} {i : Int}
    (h : (l.length : Int) ≤ i ∨ i < -(l.length : Int)) :
    pyListGet l i = none := by
  unfold pyListGet
  split_ifs with h1 h2 h3 <;> first | rfl | omega

theorem pyListGet_neg_shift {l : List α} {i : Int}
    (h0 : -(l.length : Int) ≤ i) (h1 : i < 0) :
    pyListGet l i = pyListGet l (i + l.length) := by
  unfold pyListGet
  rw [if_pos h1, if_pos (by omega), if_neg (by omega), if_pos (by omega)]

/-! ### Sorting and scanning lemmas -/

theorem insertByName_perm (f : ScanFile) (l : List ScanFile) :
    (insertByName f l).Perm (f :: l) := by
  induction l with
  | nil => exact List.Perm.refl _
  | cons g gs ih =>
      unfold insertByName
      split_ifs
      · exact List.Perm.refl _
      · exact (ih.cons g).trans (List.Perm.swap f g gs)

theorem sortFiles_perm (l : List ScanFile) : (sortFiles l).Perm l := by
  induction l with
  | nil => exact List.Perm.refl _
  | cons f fs ih =>
      exact (insertByName_perm f (sortFiles fs)).trans (ih.cons f)

theorem mem_scanExamples {files : List ScanFile} {ex : Example}
    (h : ex ∈ scanExamples files) :
    ∃ f ∈ files, ex.fname = f.fname ∧ ex.metadata = fileMetadata f := by
  unfold scanExamples at h
  rw [List.mem_flatten] at h
  obtain ⟨l, hl, hexl⟩ := h
  rw [List.mem_map] at hl
  obtain ⟨f, hf, rfl⟩ := hl
  refine ⟨f, (sortFiles_perm files).mem_iff.mp hf, ?_⟩
  unfold fileExamples at hexl
  rw [List.mem_map] at hexl
  obtain ⟨s, _, rfl⟩ := hexl
  exact ⟨rfl, rfl⟩

/-! ### Cache lemmas -/

theorem cacheGet_cons (r₀ : Root) (v₀ : List Example) (c : Cache) (r : Root) :
    cacheGet ((r₀, v₀) :: c) r = if r₀ = r then some v₀ else cacheGet c r := by
  by_cases h : r₀ = r <;> simp [cacheGet, List.find?, h]

theorem cacheSet_of_miss {c : Cache} {r : Root}
    (h : cacheGet c r = none) (v : List Example) :
    cacheSet c r v = c ++ [(r, v)] := by
  have hf : c.find? (fun p => p.1 = r) = none := by
    unfold cacheGet at h
    exact Option.map_eq_none'.mp h
  unfold cacheSet
  rw [hf]
  rfl

theorem cacheGet_append_self {c : Cache} {r : Root}
    (h : cacheGet c r = none) (v : List Example) :
    cacheGet (c ++ [(r, v)]) r = some v := by
  induction c with
  | nil => simp [cacheGet, List.find?]
  | cons p c ih =>
      obtain ⟨p1, p2⟩ := p
      rcases eq_or_ne p1 r with h1 | h1
      · rw [cacheGet_cons, if_pos h1] at h
        exact absurd h (by simp)
      · rw [cacheGet_cons, if_neg h1] at h
        rw [List.cons_append, cacheGet_cons, if_neg h1]
        exact ih h

theorem cacheGet_append_ne {c : Cache} {r r' : Root} (h : r' ≠ r)
    (v : List Example) :
    cacheGet (c ++ [(r, v)]) r' = cacheGet c r' := by
  induction c with
  | nil =>
      rw [List.nil_append, cacheGet_cons, if_neg (Ne.symm h)]
  | cons p c ih =>
      obtain ⟨p1, p2⟩ := p
      rw [List.cons_append, cacheGet_cons, cacheGet_cons]
      split_ifs with h1
      · rfl
      · exact ih

/-! ### Constructor unfolding lemmas -/

/-- The reconstruction field name resolved from the challenge mode. -/
def reconsKeyOf (challenge : String) : String :=
  if challenge = "singlecoil" then "reconstruction_esc"
  else "reconstruction_rss"

theorem sliceDatasetInit_result {root : Root} {t : TransformInput → Int}
    {ch : String} {r : ℚ} {sh : List Example → List Example}
    {nc : Option (List Int)} {cache : Option Cache} {files : List ScanFile}
    (h : ch = "singlecoil" ∨ ch = "multicoil") :
    (sliceDatasetInit root t ch r sh nc cache files).result =
      Except.ok
        { recons_key := reconsKeyOf ch,
          examples :=
            applyNumCols nc (applySampling r sh (baseExamples cache root files)),
          transform := t } := by
  have hne : ¬(ch ≠ "singlecoil" ∧ ch ≠ "multicoil") := by
    rcases h with h | h <;> simp [h]
  unfold sliceDatasetInit
  rw [if_neg hne]
  unfold baseExamples reconsKeyOf
  cases hc : cacheGet ((cache.getD []) : Cache) root <;> simp [hc]

theorem sliceDatasetInit_written {root : Root} {t : TransformInput → Int}
    {ch : String} {r : ℚ} {sh : List Example → List Example}
    {nc : Option (List Int)} {cache : Option Cache} {files : List ScanFile}
    (h : ch = "singlecoil" ∨ ch = "multicoil") :
    (sliceDatasetInit root t ch r sh nc cache files).written =
      match cacheGet (cache.getD []) root with
      | none => some (cacheSet (cache.getD []) root (scanExamples files))
      | some _ => none := by
  have hne : ¬(ch ≠ "singlecoil" ∧ ch ≠ "multicoil") := by
    rcases h with h | h <;> simp [h]
  unfold sliceDatasetInit
  rw [if_neg hne]
  cases hc : cacheGet ((cache.getD []) : Cache) root <;> simp [hc]

/-! ### Combined dataset lemmas -/

theorem combinedLen_shift (ds : List SliceDataset) (n : Nat) :
    ds.foldl (fun length d => length + d.examples.length) n
      = n + ds.foldl (fun length d => length + d.examples.length) 0 := by
  induction ds generalizing n with
  | nil => simp
  | cons d ds ih =>
      rw [List.foldl_cons, List.foldl_cons, ih, ih (0 + d.examples.length)]
      omega

theorem combinedLen_cons (d : SliceDataset) (ds : List SliceDataset) :
    combinedLen (d :: ds) = d.examples.length + combinedLen ds := by
  unfold combinedLen
  rw [List.foldl_cons, combinedLen_shift]
  omega

theorem combinedLen_eq_sum (ds : List SliceDataset) :
    combinedLen ds = (ds.map (fun d => d.examples.length)).sum := by
  induction ds with
  | nil => rfl
  | cons d ds ih => rw [combinedLen_cons, List.map_cons, List.sum_cons, ih]

theorem combinedGetitem_of_ge {fs : FS} {ds : List SliceDataset} {i : Int}
    (h : (combinedLen ds : Int) ≤ i) :
    combinedGetitem fs ds i = Except.ok none := by
  induction ds generalizing i with
  | nil => rfl
  | cons d ds ih =>
      rw [combinedLen_cons] at h
      push_cast at h
      unfold combinedGetitem
      rw [if_neg (by omega)]
      exact ih (by omega)

theorem combinedGetitem_in_range {fs : FS} {ds : List SliceDataset} {i : Int}
    (h0 : 0 ≤ i) (h1 : i < (combinedLen ds : Int)) :
    ∃ d ∈ ds, ∃ j : Nat, j < d.examples.length
      ∧ combinedGetitem fs ds i = (sliceGetitem fs d j).map some := by
  induction ds generalizing i with
  | nil =>
      rw [show combinedLen [] = 0 from rfl] at h1
      omega
  | cons d ds ih =>
      rw [combinedLen_cons] at h1
      push_cast at h1
      by_cases hd : i < (d.examples.length : Int)
      · refine ⟨d, by simp, i.toNat, by omega, ?_⟩
        unfold combinedGetitem
        rw [if_pos hd, Int.toNat_of_nonneg h0]
      · obtain ⟨d', hd', j, hj, hres⟩ :=
          ih (i := i - d.examples.length) (by omega) (by omega)
        refine ⟨d', by simp [hd'], j, hj, ?_⟩
        unfold combinedGetitem
        rw [if_neg hd]
        exact hres

theorem combinedGetitem_neg {fs : FS} {d : SliceDataset}
    {ds : List SliceDataset} {i : Int} (h : i < 0) :
    combinedGetitem fs (d :: ds) i = (sliceGetitem fs d i).map some := by
  unfold combinedGetitem
  rw [if_pos (by omega)]

theorem combinedGetitem_route {fs : FS} (ds : List SliceDataset) (k : Nat)
    (hk : k < ds.length) (j : Nat)
    (hj : j < (ds.get ⟨k, hk⟩).examples.length) :
    combinedGetitem fs ds ((combinedLen (ds.take k) : Int) + j)
      = (sliceGetitem fs (ds.get ⟨k, hk⟩) j).map some := by
  induction ds generalizing k with
  | nil => exact absurd hk (by simp)
  | cons d ds ih =>
      cases k with
      | zero =>
          rw [show combinedLen ((d :: ds).take 0) = 0 from rfl]
          unfold combinedGetitem
          rw [Nat.cast_zero, zero_add,
            if_pos (by exact_mod_cast hj)]
          rfl
      | succ k =>
          have hk' : k < ds.length := by
            simpa using Nat.lt_of_succ_lt_succ hk
          have htake : (d :: ds).take (k + 1) = d :: ds.take k :=
            List.take_succ_cons
          have hlen : combinedLen ((d :: ds).take (k + 1))
              = d.examples.length + combinedLen (ds.take k) := by
            rw [htake, combinedLen_cons]
          unfold combinedGetitem
          rw [hlen, if_neg (by push_cast; omega)]
          have harith :
              ((d.examples.length + combinedLen (ds.take k) : Nat) : Int) + j
                - d.examples.length
              = (combinedLen (ds.take k) : Int) + j := by
            push_cast
            ring
          rw [harith]
          exact ih k hk' hj

/-! ### Sub-sampling lemmas -/

theorem applySampling_of_lt_one {r : ℚ} (hr1 : r < 1)
    (sh : List Example → List Example) (exs : List Example) :
    applySampling r sh exs
      = pySliceTo (pyRound (((sh exs).length : ℚ) * r)) (sh exs) := by
  unfold applySampling
  rw [if_pos hr1]

theorem pyRound_len_mul_nonneg {n : Nat} {r : ℚ} (hr0 : 0 ≤ r) :
    0 ≤ pyRound ((n : ℚ) * r) :=
  pyRound_nonneg (mul_nonneg (by positivity) hr0)

theorem pyRound_len_mul_le {n : Nat} {r : ℚ} (hr1 : r < 1) :
    pyRound ((n : ℚ) * r) ≤ (n : Int) := by
  rcases Nat.eq_zero_or_pos n with hn | hn
  · subst hn
    rw [Nat.cast_zero, zero_mul, pyRound_zero]
    omega
  · apply pyRound_le_of_lt
    push_cast
    calc (n : ℚ) * r < (n : ℚ) * 1 := by
          exact mul_lt_mul_of_pos_left hr1 (by positivity)
      _ = (n : ℚ) := mul_one _

theorem applyNumCols_none (exs : List Example) : applyNumCols none exs = exs :=
  rfl

/-! ### Claim theorems -/

/-- C6: if the challenge argument is neither "singlecoil" nor
"multicoil", construction fails with an invalid-argument error and
performs no filesystem access at all: no cache read, no directory
listing, no file open, no cache write. -/
theorem challenge_validated_before_fs_access
    (root : Root) (t : TransformInput → Int) (ch : String) (r : ℚ)
    (sh : List Example → List Example) (nc : Option (List Int))
    (cache : Option Cache) (files : List ScanFile)
    (h1 : ch ≠ "singlecoil") (h2 : ch ≠ "multicoil") :
    (∃ msg, (sliceDatasetInit root t ch r sh nc cache files).result
        = Except.error msg)
    ∧ (sliceDatasetInit root t ch r sh nc cache files).trace = []
    ∧ (sliceDatasetInit root t ch r sh nc cache files).written = none := by
  unfold sliceDatasetInit
  rw [if_pos ⟨h1, h2⟩]
  exact ⟨⟨_, rfl⟩, rfl, rfl⟩

theorem challenge_validated_before_fs_access_witness :
    (∃ msg,
      (sliceDatasetInit "r" exTransform "foo" 1 id none none [exFile]).result
        = Except.error msg)
    ∧ (sliceDatasetInit "r" exTransform "foo" 1 id none none [exFile]).trace
        = []
    ∧ (sliceDatasetInit "r" exTransform "foo" 1 id none none [exFile]).written
        = none :=
  challenge_validated_before_fs_access "r" exTransform "foo" 1 id none none
    [exFile] (by decide) (by decide)

/-- C4: the combined length is the sum of the constituent lengths, and
the combined index `sum of len(d) for d before k, plus j` routes to
dataset `k`'s `j`-th item. -/
theorem combined_len_sum_and_routing (fs : FS) (c : CombinedSliceDataset)
    (k : Nat) (hk : k < c.datasets.length) (j : Nat)
    (hj : j < (c.datasets.get ⟨k, hk⟩).examples.length) :
    combinedLen c.datasets
      = (c.datasets.map (fun d => d.examples.length)).sum
    ∧ combinedGetitem fs c.datasets
        ((combinedLen (c.datasets.take k) : Int) + j)
      = (sliceGetitem fs (c.datasets.get ⟨k, hk⟩) j).map some :=
  ⟨combinedLen_eq_sum _, combinedGetitem_route c.datasets k hk j hj⟩

theorem combined_len_sum_and_routing_witness :
    combinedLen (CombinedSliceDataset.mk [exDS]).datasets
      = ((CombinedSliceDataset.mk [exDS]).datasets.map
          (fun d => d.examples.length)).sum
    ∧ combinedGetitem exFS (CombinedSliceDataset.mk [exDS]).datasets
        ((combinedLen ((CombinedSliceDataset.mk [exDS]).datasets.take 0) : Int)
          + (1 : Nat))
      = (sliceGetitem exFS
          ((CombinedSliceDataset.mk [exDS]).datasets.get ⟨0, by decide⟩)
          (1 : Nat)).map some :=
  combined_len_sum_and_routing exFS (CombinedSliceDataset.mk [exDS]) 0
    (by decide) 1 (by decide)

/-- C8: on a cache miss the constructor writes back the cache extended
with the scanned example list, and every scanned example's stored
metadata satisfies `padding_left = enc_size_y // 2 - center` and
`padding_right = padding_left + (maximum + 1)` for the integers read
from its file's header (`//` being floor division). -/
theorem cache_miss_padding_formulas
    (root : Root) (t : TransformInput → Int) (ch : String) (r : ℚ)
    (sh : List Example → List Example) (nc : Option (List Int))
    (cache : Option Cache) (files : List ScanFile)
    (hch : ch = "singlecoil" ∨ ch = "multicoil")
    (hmiss : cacheGet (cache.getD []) root = none) :
    (sliceDatasetInit root t ch r sh nc cache files).written
      = some (cacheSet (cache.getD []) root (scanExamples files))
    ∧ ∀ ex ∈ scanExamples files, ∃ f ∈ files,
        ex.fname = f.fname
        ∧ ex.metadata.padding_left = Int.fdiv f.encY 2 - f.center
        ∧ ex.metadata.padding_right
            = ex.metadata.padding_left + (f.maximum + 1) := by
  constructor
  · rw [sliceDatasetInit_written hch, hmiss]
  · intro ex hex
    obtain ⟨f, hf, hname, hmeta⟩ := mem_scanExamples hex
    refine ⟨f, hf, hname, ?_, ?_⟩ <;> rw [hmeta] <;> rfl

theorem cache_miss_padding_formulas_witness :
    (sliceDatasetInit "r" exTransform "multicoil" 1 id none none
        [exFile]).written
      = some (cacheSet ((none : Option Cache).getD []) "r"
          (scanExamples [exFile]))
    ∧ ∀ ex ∈ scanExamples [exFile], ∃ f ∈ [exFile],
        ex.fname = f.fname
        ∧ ex.metadata.padding_left = Int.fdiv f.encY 2 - f.center
        ∧ ex.metadata.padding_right
            = ex.metadata.padding_left + (f.maximum + 1) :=
  cache_miss_padding_formulas "r" exTransform "multicoil" 1 id none none
    [exFile] (Or.inr rfl) rfl

/-- C9: on a cache miss the mapping written back to disk holds the new
root's freshly scanned example list, and every other root's entry is
exactly what the cache file already held: entries are appended, never
mutated or dropped. -/
theorem cache_write_appends_only
    (root : Root) (t : TransformInput → Int) (ch : String) (r : ℚ)
    (sh : List Example → List Example) (nc : Option (List Int))
    (cache : Option Cache) (files : List ScanFile)
    (hch : ch = "singlecoil" ∨ ch = "multicoil")
    (hmiss : cacheGet (cache.getD []) root = none) :
    (sliceDatasetInit root t ch r sh nc cache files).written
      = some (cacheSet (cache.getD []) root (scanExamples files))
    ∧ cacheGet (cacheSet (cache.getD []) root (scanExamples files)) root
      = some (scanExamples files)
    ∧ ∀ r' : Root, r' ≠ root →
        cacheGet (cacheSet (cache.getD []) root (scanExamples files)) r'
          = cacheGet (cache.getD []) r' := by
  refine ⟨?_, ?_, ?_⟩
  · rw [sliceDatasetInit_written hch, hmiss]
  · rw [cacheSet_of_miss hmiss]
    exact cacheGet_append_self hmiss _
  · intro r' hr'
    rw [cacheSet_of_miss hmiss]
    exact cacheGet_append_ne hr' _

theorem cache_write_appends_only_witness :
    (sliceDatasetInit "r" exTransform "multicoil" 1 id none
        (some [("s", [exExample0])]) [exFile]).written
      = some (cacheSet ((some [("s", [exExample0])] : Option Cache).getD [])
          "r" (scanExamples [exFile]))
    ∧ cacheGet (cacheSet ((some [("s", [exExample0])] : Option Cache).getD [])
          "r" (scanExamples [exFile])) "r"
      = some (scanExamples [exFile])
    ∧ ∀ r' : Root, r' ≠ "r" →
        cacheGet
          (cacheSet ((some [("s", [exExample0])] : Option Cache).getD [])
            "r" (scanExamples [exFile])) r'
          = cacheGet ((some [("s", [exExample0])] : Option Cache).getD []) r' :=
  cache_write_appends_only "r" exTransform "multicoil" 1 id none
    (some [("s", [exExample0])]) [exFile] (Or.inr rfl) (by decide)

/-- C10: the cache content written to disk does not depend on the
sample rate, the shuffle, or the column filter; on a miss it is always
the cache extended with the full, un-sampled, un-filtered scan of the
root. -/
theorem cache_write_independent_of_sampling
    (root : Root) (t : TransformInput → Int) (ch : String) (r₁ r₂ : ℚ)
    (sh₁ sh₂ : List Example → List Example) (nc₁ nc₂ : Option (List Int))
    (cache : Option Cache) (files : List ScanFile) :
    (sliceDatasetInit root t ch r₁ sh₁ nc₁ cache files).written
      = (sliceDatasetInit root t ch r₂ sh₂ nc₂ cache files).written
    ∧ ((ch = "singlecoil" ∨ ch = "multicoil") →
        cacheGet (cache.getD []) root = none →
        (sliceDatasetInit root t ch r₁ sh₁ nc₁ cache files).written
          = some (cacheSet (cache.getD []) root (scanExamples files))) := by
  refine ⟨?_, fun hch hmiss => by rw [sliceDatasetInit_written hch, hmiss]⟩
  by_cases hch : ch = "singlecoil" ∨ ch = "multicoil"
  · rw [sliceDatasetInit_written hch, sliceDatasetInit_written hch]
  · have h1 : ch ≠ "singlecoil" ∧ ch ≠ "multicoil" := by tauto
    unfold sliceDatasetInit
    simp only [if_pos h1]

theorem cache_write_independent_of_sampling_witness :
    (sliceDatasetInit "r" exTransform "multicoil" 1 id none none
        [exFile]).written
      = (sliceDatasetInit "r" exTransform "multicoil" (mkRat 1 2)
          (fun l => l.reverse) (some [6]) none [exFile]).written
    ∧ (sliceDatasetInit "r" exTransform "multicoil" 1 id none none
        [exFile]).written
      = some (cacheSet ((none : Option Cache).getD []) "r"
          (scanExamples [exFile])) :=
  ⟨(cache_write_independent_of_sampling "r" exTransform "multicoil" 1
      (mkRat 1 2) id (fun l => l.reverse) none (some [6]) none [exFile]).1,
    (cache_write_independent_of_sampling "r" exTransform "multicoil" 1
      (mkRat 1 2) id (fun l => l.reverse) none (some [6]) none [exFile]).2
      (Or.inr rfl) rfl⟩

/-- C5: constructing with sample rate `0 ≤ r < 1` (and no column
filter) yields exactly `round(N * r)` examples, every one of which is a
member of the original index of `N` examples; the shuffle is assumed to
permute the list, as `random.shuffle` does. -/
theorem sampling_length_and_membership
    (root : Root) (t : TransformInput → Int) (ch : String) (r : ℚ)
    (sh : List Example → List Example) (cache : Option Cache)
    (files : List ScanFile)
    (hch : ch = "singlecoil" ∨ ch = "multicoil")
    (hr0 : 0 ≤ r) (hr1 : r < 1)
    (hperm : (sh (baseExamples cache root files)).Perm
      (baseExamples cache root files)) :
    ∃ exs : List Example,
      (sliceDatasetInit root t ch r sh none cache files).result.map
          (fun d => d.examples) = Except.ok exs
      ∧ (exs.length : Int)
          = pyRound (((baseExamples cache root files).length : ℚ) * r)
      ∧ ∀ x ∈ exs, x ∈ baseExamples cache root files := by
  refine ⟨applySampling r sh (baseExamples cache root files), ?_, ?_, ?_⟩
  · rw [sliceDatasetInit_result hch]
    rfl
  · rw [applySampling_of_lt_one hr1, hperm.length_eq]
    have ht0 : 0 ≤ pyRound (((baseExamples cache root files).length : ℚ) * r) :=
      pyRound_len_mul_nonneg hr0
    have htle := pyRound_len_mul_le
      (n := (baseExamples cache root files).length) (r := r) hr1
    rw [pySliceTo_of_nonneg _ ht0, List.length_take, hperm.length_eq,
      min_eq_left (Int.toNat_le.mpr htle), Int.toNat_of_nonneg ht0]
  · intro x hx
    rw [applySampling_of_lt_one hr1] at hx
    have ht0 : 0 ≤ pyRound
        (((sh (baseExamples cache root files)).length : ℚ) * r) :=
      pyRound_len_mul_nonneg hr0
    rw [pySliceTo_of_nonneg _ ht0] at hx
    exact hperm.mem_iff.mp (List.take_subset _ _ hx)

theorem sampling_length_and_membership_witness :
    ∃ exs : List Example,
      (sliceDatasetInit "r" exTransform "multicoil" (mkRat 1 2) id none
          (some exCache) []).result.map (fun d => d.examples) = Except.ok exs
      ∧ (exs.length : Int)
          = pyRound (((baseExamples (some exCache) "r" []).length : ℚ)
              * mkRat 1 2)
      ∧ ∀ x ∈ exs, x ∈ baseExamples (some exCache) "r" [] :=
  sampling_length_and_membership "r" exTransform "multicoil" (mkRat 1 2) id
    (some exCache) [] (Or.inr rfl) (by decide) (by decide) (List.Perm.refl _)

/-- C7: challenge "multicoil" resolves the reconstruction field to
"reconstruction_rss" and "singlecoil" to "reconstruction_esc"; and for
a valid index whose file can be opened and read but lacks the resolved
field, `get` succeeds and hands the transform a null target. -/
theorem recons_key_and_null_target :
    (∀ (root : Root) (t : TransformInput → Int) (r : ℚ)
        (sh : List Example → List Example) (nc : Option (List Int))
        (cache : Option Cache) (files : List ScanFile),
      ∃ ds, (sliceDatasetInit root t "multicoil" r sh nc cache files).result
          = Except.ok ds ∧ ds.recons_key = "reconstruction_rss")
    ∧ (∀ (root : Root) (t : TransformInput → Int) (r : ℚ)
        (sh : List Example → List Example) (nc : Option (List Int))
        (cache : Option Cache) (files : List ScanFile),
      ∃ ds, (sliceDatasetInit root t "singlecoil" r sh nc cache files).result
          = Except.ok ds ∧ ds.recons_key = "reconstruction_esc")
    ∧ ∀ (fs : FS) (ds : SliceDataset) (i : Int) (ex : Example)
        (hf : ScanFile) (kdat : Int),
        pyListGet ds.examples i = some ex →
        fs ex.fname = some hf →
        hf.kspace.get? ex.sliceInd = some kdat →
        lookupRecons hf ds.recons_key = none →
        sliceGetitem fs ds i = Except.ok (ds.transform
          ⟨kdat, hf.mask, none, (hf.attrs, ex.metadata),
            baseName ex.fname, ex.sliceInd⟩) := by
  refine ⟨?_, ?_, ?_⟩
  · intro root t r sh nc cache files
    exact ⟨_, sliceDatasetInit_result (Or.inr rfl), rfl⟩
  · intro root t r sh nc cache files
    exact ⟨_, sliceDatasetInit_result (Or.inl rfl), rfl⟩
  · intro fs ds i ex hf kdat h1 h2 h3 h4
    simp only [sliceGetitem, h1, h2, h3, h4]

theorem recons_key_and_null_target_witness :
    (∃ ds, (sliceDatasetInit "r" exTransform "multicoil" 1 id none none
        [exFile]).result = Except.ok ds
      ∧ ds.recons_key = "reconstruction_rss")
    ∧ sliceGetitem exFS exDS 0 = Except.ok 10 := by
  constructor
  · exact recons_key_and_null_target.1 "r" exTransform 1 id none none [exFile]
  · exact recons_key_and_null_target.2.2 exFS exDS 0 exExample0 exFile 10
      rfl rfl rfl rfl

/-- C1 counterexample: on a combined dataset of total length 2, `get(2)`
does not fail with an out-of-range error: the loop over the underlying
datasets falls through and the method returns Python `None`. -/
theorem combined_get_past_end_returns_none :
    combinedGetitem exFS [exDS] 2 = Except.ok none
    ∧ ¬ ∃ e, combinedGetitem exFS [exDS] 2 = Except.error e := by
  constructor
  · rfl
  · rintro ⟨e, he⟩
    rw [show combinedGetitem exFS [exDS] 2 = Except.ok none from rfl] at he
    exact Except.noConfusion he

/-- C1 amended: for `i ≥ length()` the combined `get` returns Python
`None` successfully instead of raising; for `i` in `[0, length())` it
returns the item delegated to one of the underlying datasets; for
negative `i` the raw index is handed to the first underlying dataset,
where Python negative indexing applies. -/
theorem combined_get_range_behaviour (fs : FS) (c : CombinedSliceDataset)
    (i : Int) :
    ((combinedLen c.datasets : Int) ≤ i →
        combinedGetitem fs c.datasets i = Except.ok none)
    ∧ (0 ≤ i → i < (combinedLen c.datasets : Int) →
        ∃ d ∈ c.datasets, ∃ j : Nat, j < d.examples.length
          ∧ combinedGetitem fs c.datasets i = (sliceGetitem fs d j).map some)
    ∧ (i < 0 → ∀ d ds', c.datasets = d :: ds' →
        combinedGetitem fs c.datasets i = (sliceGetitem fs d i).map some) := by
  refine ⟨fun h => combinedGetitem_of_ge h,
    fun h0 h1 => combinedGetitem_in_range h0 h1, ?_⟩
  intro hneg d ds' hds
  rw [hds]
  exact combinedGetitem_neg hneg

theorem combined_get_range_behaviour_witness :
    combinedGetitem exFS [exDS] 3 = Except.ok none
    ∧ (∃ d ∈ (CombinedSliceDataset.mk [exDS]).datasets, ∃ j : Nat,
        j < d.examples.length
        ∧ combinedGetitem exFS [exDS] 0 = (sliceGetitem exFS d j).map some)
    ∧ combinedGetitem exFS [exDS] (-1)
        = (sliceGetitem exFS exDS (-1)).map some :=
  ⟨(combined_get_range_behaviour exFS (CombinedSliceDataset.mk [exDS]) 3).1
      (by decide),
    (combined_get_range_behaviour exFS (CombinedSliceDataset.mk [exDS]) 0).2.1
      (by decide) (by decide),
    (combined_get_range_behaviour exFS
        (CombinedSliceDataset.mk [exDS]) (-1)).2.2
      (by decide) exDS [] rfl⟩

/-- C3 counterexample: on a dataset of length 2, `get(-1)` — an index
outside `[0, length())` — succeeds and returns the last slice's item,
because Python list indexing accepts negative indices. -/
theorem slice_get_negative_index_succeeds :
    sliceGetitem exFS exDS (-1) = Except.ok 20
    ∧ ¬ ∃ e, sliceGetitem exFS exDS (-1) = Except.error e := by
  constructor
  · rfl
  · rintro ⟨e, he⟩
    rw [show sliceGetitem exFS exDS (-1) = Except.ok 20 from rfl] at he
    exact Except.noConfusion he

/-- C3 amended: `get(i)` fails with an out-of-range error exactly when
`i ≥ length()` or `i < -length()`; for `i` in `[-length(), 0)` Python
negative indexing applies and `get(i)` behaves as `get(i + length())`. -/
theorem slice_get_range_behaviour (fs : FS) (ds : SliceDataset) (i : Int) :
    (((ds.examples.length : Int) ≤ i ∨ i < -(ds.examples.length : Int)) →
        sliceGetitem fs ds i = Except.error GetErr.indexError)
    ∧ (-(ds.examples.length : Int) ≤ i → i < 0 →
        sliceGetitem fs ds i = sliceGetitem fs ds (i + ds.examples.length)) := by
  constructor
  · intro h
    unfold sliceGetitem
    rw [pyListGet_eq_none h]
  · intro h0 h1
    unfold sliceGetitem
    rw [pyListGet_neg_shift h0 h1]

theorem slice_get_range_behaviour_witness :
    sliceGetitem exFS exDS 5 = Except.error GetErr.indexError
    ∧ sliceGetitem exFS exDS (-2)
        = sliceGetitem exFS exDS (-2 + exDS.examples.length) :=
  ⟨(slice_get_range_behaviour exFS exDS 5).1 (by decide),
    (slice_get_range_behaviour exFS exDS (-2)).2 (by decide) (by decide)⟩

/-- C2 counterexample: constructing with the empty column filter does
not filter at all — both examples survive even though no entry has its
second encoding dimension in the empty set — because an empty tuple is
falsy in Python, so `if num_cols:` skips the filtering branch. -/
theorem empty_num_cols_filter_is_noop :
    (sliceDatasetInit "r" exTransform "multicoil" 1 id (some [])
        none [exFile]).result.map (fun d => d.examples)
      = Except.ok [exExample0, exExample1]
    ∧ ([exExample0, exExample1].filter
        (fun ex => (([] : List Int)).contains ex.metadata.encoding_size.2.1))
      = []
    ∧ ([exExample0, exExample1] : List Example) ≠ [] := by
  refine ⟨?_, rfl, by decide⟩
  rfl

/-- C2 amended: for every nonempty column filter the resulting example
list is exactly the order-preserving filter of the (possibly sampled)
entries whose second encoding-size component lies in the allowed set;
the empty filter is falsy in Python and leaves the list unchanged. -/
theorem num_cols_filter_behaviour
    (root : Root) (t : TransformInput → Int) (ch : String) (r : ℚ)
    (sh : List Example → List Example) (cache : Option Cache)
    (files : List ScanFile) (cs : List Int)
    (hch : ch = "singlecoil" ∨ ch = "multicoil") (hcs : cs ≠ []) :
    (sliceDatasetInit root t ch r sh (some cs) cache files).result.map
        (fun d => d.examples)
      = Except.ok ((applySampling r sh (baseExamples cache root files)).filter
          (fun ex => cs.contains ex.metadata.encoding_size.2.1))
    ∧ (sliceDatasetInit root t ch r sh (some []) cache files).result.map
        (fun d => d.examples)
      = Except.ok (applySampling r sh (baseExamples cache root files)) := by
  constructor
  · rw [sliceDatasetInit_result hch]
    have hne : applyNumCols (some cs)
        (applySampling r sh (baseExamples cache root files))
        = (applySampling r sh (baseExamples cache root files)).filter
            (fun ex => cs.contains ex.metadata.encoding_size.2.1) := by
      have hemp : cs.isEmpty = false := by simp [hcs]
      simp [applyNumCols, hemp]
    rw [show (Except.ok
        { recons_key := reconsKeyOf ch,
          examples := applyNumCols (some cs)
            (applySampling r sh (baseExamples cache root files)),
          transform := t } : Except String SliceDataset).map
            (fun d => d.examples)
        = Except.ok (applyNumCols (some cs)
            (applySampling r sh (baseExamples cache root files))) from rfl,
      hne]
  · rw [sliceDatasetInit_result hch]
    rfl

theorem num_cols_filter_behaviour_witness :
    (sliceDatasetInit "r" exTransform "multicoil" 1 id (some [6])
        none [exFile]).result.map (fun d => d.examples)
      = Except.ok
          ((applySampling 1 id (baseExamples none "r" [exFile])).filter
            (fun ex => ([6] : List Int).contains ex.metadata.encoding_size.2.1))
    ∧ (sliceDatasetInit "r" exTransform "multicoil" 1 id (some [])
        none [exFile]).result.map (fun d => d.examples)
      = Except.ok (applySampling 1 id (baseExamples none "r" [exFile])) :=
  num_cols_filter_behaviour "r" exTransform "multicoil" 1 id none [exFile]
    [6] (Or.inr rfl) (by decide)

end MriData
